import Mathlib

/-!
# Verification of the wbb-cms-backend menu/slug and page-publishing core

Shallow embedding of the hierarchical menu management and page-resolution
subsystem of the `wbb-cms-backend` repository:

* `src/src/models/category.model.js` — the Mongoose `Menu` schema: the
  `parentId` cycle validator and the `pre('save')` slug-generation hook;
* `src/src/routes/menu.routes.js` — the admin menu routes (`/create-menu`,
  `/update-menu/:id`, `/delete-menu-item/:id`);
* `src/src/routes/public.routes.js` — the public page resolver (both the
  Prisma variant and the Mongoose variant of `GET /pages/:slug(*)`) and the
  public menu tree renderer (`GET /menu`, Mongoose variant).

Modelling conventions:

* Strings are modelled as `List Char` (`Str`), ids as `Nat`, a Mongo/SQL
  collection as a `List` of records, `findById`/`findOne` as `List.find?`.
* JavaScript `async` steps are sequenced in program order (the backend runs
  each request on a single event loop; no claim below depends on the
  interleaving of concurrently started promises, so `Promise.all` over the
  per-child updates of the delete cascade is modelled as a left fold).
* Timestamps (`createdAt` / `updatedAt`) are external wall-clock data and are
  left out of the record model.
* Fallible JavaScript (thrown errors, rejected promises, `TypeError` from a
  `null` dereference) is modelled with `Except` / explicit error results.
* The Mongoose schema's `url`-format regex validator is not exercised by any
  property below and is not modelled; the `parentId` validator, the unique
  indexes on `slug` / `title.en` / `title.bn`, and the `pre('save')` hook are
  modelled in full.
-/

/-- Strings of the JavaScript model, as lists of characters. -/
abbrev Str := List Char

/-- Shorthand turning a Lean string literal into a model string. -/
def str (s : String) : Str := s.data

namespace WbbCms

/-! ## The `slugify` dependency

Model of the npm `slugify` package as called by the menu model:
`slugify(title, { lower: true, strict: true })`.  On ASCII input the package

1. maps each character through its character map — on ASCII this expands the
   six symbols `$ % & < > |` to the words `dollar`, `percent`, `and`,
   `less`, `greater`, `or` and is the identity otherwise — and turns any
   mapped character equal to the replacement `'-'` into a space,
2. with `strict: true`, removes every remaining character that is neither an
   ASCII letter, a digit, nor whitespace (the default `remove` pattern
   deletes only a subset of these, so it is absorbed by the strict filter),
3. trims surrounding whitespace,
4. replaces each maximal run of whitespace by a single `'-'`,
5. with `lower: true`, lower-cases the result.
-/

/-- Whitespace as matched by the JavaScript `\s` class (common characters). -/
def isWsChar (c : Char) : Bool :=
  c = ' ' || c = '\t' || c = '\n' || c = '\r'

/-- Step 4 of `slugify` (`.replace(/\s+/g, '-')`): each maximal whitespace
run becomes one hyphen.  A whitespace character directly followed by more
whitespace is dropped; the last character of a run becomes the hyphen. -/
def collapseWsToHyphen : Str → Str
  | [] => []
  | [c] => if isWsChar c then ['-'] else [c]
  | c :: d :: rest =>
    if isWsChar c then
      if isWsChar d then collapseWsToHyphen (d :: rest)
      else '-' :: collapseWsToHyphen (d :: rest)
    else c :: collapseWsToHyphen (d :: rest)

/-- Trim surrounding whitespace (JavaScript `String.prototype.trim`). -/
def trimWs (s : Str) : Str :=
  ((s.dropWhile isWsChar).reverse.dropWhile isWsChar).reverse

/-- The ASCII entries of the package's character map: `$ % & < > |` become
words, every other character maps to itself. -/
def slugifyCharMap (c : Char) : Str :=
  if c = '$' then str "dollar"
  else if c = '%' then str "percent"
  else if c = '&' then str "and"
  else if c = '<' then str "less"
  else if c = '>' then str "greater"
  else if c = '|' then str "or"
  else [c]

/-- Step 1 of `slugify`: charmap expansion, then a mapped character equal to
the replacement `'-'` becomes a space. -/
def slugifyMapChar (c : Char) : Str :=
  let mapped := slugifyCharMap c
  if mapped = ['-'] then [' '] else mapped

/-- `slugify(s, { lower: true, strict: true })` on ASCII input. -/
def slugifyLS (s : Str) : Str :=
  let replaced := s.flatMap slugifyMapChar
  let kept := replaced.filter (fun c => c.isAlphanum || isWsChar c)
  (collapseWsToHyphen (trimWs kept)).map Char.toLower

/-! ## The menu data model

`MenuSchema` of `src/src/models/category.model.js`.  `createdAt`/`updatedAt`
are omitted (wall-clock metadata, see the header).  A `url` value of
`some []` models the empty string, which is falsy in JavaScript. -/

structure MenuNode where
  id : Nat
  titleEn : Str
  titleBn : Str
  slug : Str
  parentId : Option Nat
  isExternalLink : Bool
  url : Option Str
  order : Nat
  isActive : Bool
deriving DecidableEq, Repr

/-- A Mongo collection of menu documents. -/
abbrev MenuStore := List MenuNode

/-- `Menu.findById(id)`; `findById(null)` yields `null`. -/
def findById (store : MenuStore) : Option Nat → Option MenuNode
  | none => none
  | some i => store.find? (fun m => m.id = i)

/-- JavaScript truthiness of an optional string field (`null` and `''` are
falsy). -/
def jsTruthyStr : Option Str → Bool
  | none => false
  | some s => !s.isEmpty

/-! ### The `parentId` cycle validator

`MenuSchema.parentId.validate` (category.model.js lines 88–109): the parent
must exist, must not be the node itself, and walking `parentId` links upward
from it must never reach the node being validated.  The JavaScript `while`
loop diverges on a cyclic chain that does not pass through the node; the
model bounds the walk by a fuel argument, which is set to the store size —
enough to traverse any acyclic chain. -/

/-- The `while (currentParent)` loop of the validator: `true` iff the walk
starting at `p` reaches a node whose id is `selfId` within `fuel` steps. -/
def cycleWalk (store : MenuStore) (selfId : Nat) : MenuNode → Nat → Bool
  | p, 0 => p.id = selfId
  | p, fuel + 1 =>
    if p.id = selfId then true
    else
      match findById store p.parentId with
      | none => false
      | some q => cycleWalk store selfId q fuel

/-- The full `parentId` validator. -/
def validateParentId (store : MenuStore) (selfId : Nat) :
    Option Nat → Bool
  | none => true
  | some v =>
    match findById store (some v) with
    | none => false
    | some parent =>
      if v = selfId then false
      else !cycleWalk store selfId parent store.length

/-- The chain of ancestor ids obtained by walking `parentId` links upward
from a proposed parent reference (the object the validator traverses). -/
def ancestorChain (store : MenuStore) : Option Nat → Nat → List Nat
  | _, 0 => []
  | none, _ => []
  | some pid, fuel + 1 =>
    match findById store (some pid) with
    | none => []
    | some p => p.id :: ancestorChain store p.parentId fuel

/-! ### The `pre('save')` hook

`MenuSchema.pre('save')` (category.model.js lines 148–176): skipped for
external links (`isExternalLink` truthy or `url` truthy); otherwise the slug
is regenerated from the English title, prefixed by the parent's slug when the
parent is found, and forced to start with `'/'`.  A self-referential
`parentId` makes the hook throw. -/

/-- ``baseSlug.startsWith('/') ? baseSlug : `/${baseSlug}` ``. -/
def ensureLeadingSlash (s : Str) : Str :=
  if s.head? = some '/' then s else '/' :: s

def menuPreSave (store : MenuStore) (n : MenuNode) : Except Str MenuNode :=
  if n.isExternalLink || jsTruthyStr n.url then
    .ok n
  else
    let base := slugifyLS n.titleEn
    let base' :=
      match n.parentId with
      | some pid =>
        match findById store (some pid) with
        | some parentMenu => parentMenu.slug ++ '/' :: base
        | none => base
      | none => base
    let slug := ensureLeadingSlash base'
    if n.parentId = some n.id then
      .error (str "Menu item cannot be its own parent")
    else
      .ok { n with slug := slug }

/-! ### Saving a document

`document.save()`: Mongoose first runs validation (registered as the initial
`pre('save')` middleware), then the user-defined `pre('save')` hook, then
writes the document; the write is rejected when one of the unique indexes on
`slug`, `title.en`, `title.bn` is violated by another document. -/

inductive SaveErr where
  | validation
  | hook (msg : Str)
  | duplicate
deriving DecidableEq, Repr

/-- The unique indexes `slug`, `title.en`, `title.bn`: no *other* document
may share any of the indexed values. -/
def uniqueIndexesOk (store : MenuStore) (n : MenuNode) : Bool :=
  store.all fun m =>
    m.id = n.id || (m.slug ≠ n.slug && m.titleEn ≠ n.titleEn && m.titleBn ≠ n.titleBn)

/-- Write a document: replace the entry with the same id, or append a new
one. -/
def upsert (store : MenuStore) (n : MenuNode) : MenuStore :=
  if store.any (fun m => m.id = n.id) then
    store.map (fun m => if m.id = n.id then n else m)
  else
    store ++ [n]

/-- `doc.save()` for a `Menu` document, against the given collection state.
Returns the stored document and the new collection state. -/
def saveMenuDoc (store : MenuStore) (n : MenuNode) :
    Except SaveErr (MenuNode × MenuStore) :=
  if !validateParentId store n.id n.parentId then
    .error .validation
  else
    match menuPreSave store n with
    | .error e => .error (.hook e)
    | .ok n' =>
      if !uniqueIndexesOk store n' then
        .error .duplicate
      else
        .ok (n', upsert store n')

/-! ## Menu routes (`src/src/routes/menu.routes.js`)

HTTP responses are modelled as a status code plus the handler's message. -/

structure HttpResp where
  status : Nat
  msg : Str
deriving DecidableEq, Repr

/-- `checkDuplicateTitle`, create branch (no `req.params.id`): reject when any
document already has either title. -/
def checkDuplicateTitleCreate (store : MenuStore) (tEn tBn : Str) : Bool :=
  let existingMenuEn := store.find? (fun m => m.titleEn = tEn)
  let existingMenuBn := store.find? (fun m => m.titleBn = tBn)
  !(existingMenuEn.isSome || existingMenuBn.isSome)

/-- `checkDuplicateTitle`, update branch (`req.params.id` present): reject only
when a *different* document has one of the titles. -/
def checkDuplicateTitleUpdate (store : MenuStore) (id : Nat) (tEn tBn : Str) :
    Bool :=
  let existingMenuEn := store.find? (fun m => m.titleEn = tEn)
  let existingMenuBn := store.find? (fun m => m.titleBn = tBn)
  !((match existingMenuEn with
     | some m => m.id ≠ id
     | none => false) ||
    (match existingMenuBn with
     | some m => m.id ≠ id
     | none => false))

/-- `validateMenuInput` as enforced by the create handler's
`validationResult` check: both localized titles have trimmed length 1..200
(the other rules of the middleware constrain optional fields not modelled
here; title presence/length is the one the claims exercise). -/
def createInputValid (n : MenuNode) : Bool :=
  let okLen := fun (t : Str) => decide (1 ≤ (trimWs t).length) &&
    decide ((trimWs t).length ≤ 200)
  okLen n.titleEn && okLen n.titleBn

/-- `POST /create-menu`: input validation, duplicate-title check, then
`new Menu(...).save()`.  The caller provides the freshly generated id inside
`input`.  Returns the response and the final collection state. -/
def createMenu (store : MenuStore) (input : MenuNode) :
    HttpResp × MenuStore :=
  if !createInputValid input then
    (⟨400, str "errors"⟩, store)
  else if !checkDuplicateTitleCreate store input.titleEn input.titleBn then
    (⟨400, str "Menu item with this title already exists"⟩, store)
  else
    match saveMenuDoc store input with
    | .error _ => (⟨500, str "Error creating menu"⟩, store)
    | .ok (_, store') =>
      (⟨201, str "Menu Item created successfully!"⟩, store')

/-- A PATCH body for `/update-menu/:id`.  `none` on an optional field means
the field is absent from the JSON body; titles are always present (the
duplicate-title middleware dereferences them). -/
structure UpdateBody where
  titleEn : Str
  titleBn : Str
  parentId : Option (Option Nat) := none
  isExternalLink : Option Bool := none
  url : Option (Option Str) := none
  order : Option Nat := none
deriving DecidableEq, Repr

/-- Merge `{...req.body}` into a stored document. -/
def applyBody (b : UpdateBody) (m : MenuNode) : MenuNode :=
  { m with
    titleEn := b.titleEn
    titleBn := b.titleBn
    parentId := b.parentId.getD m.parentId
    isExternalLink := b.isExternalLink.getD m.isExternalLink
    url := b.url.getD m.url
    order := b.order.getD m.order }

/-- `Menu.findByIdAndUpdate(id, {...body}, { new: true })`: writes the merged
document *without* running validators or `pre('save')` hooks (Mongoose
update-query semantics, `runValidators` defaults to `false`), returning the
updated document (or `null`) together with the new collection state. -/
def findByIdAndUpdate (store : MenuStore) (id : Nat) (b : UpdateBody) :
    Option MenuNode × MenuStore :=
  match store.find? (fun m => m.id = id) with
  | none => (none, store)
  | some m =>
    let m' := applyBody b m
    (some m', store.map (fun x => if x.id = id then m' else x))

/-- The body of the `try` block of `PATCH /update-menu/:id` after the
middleware: `findByIdAndUpdate`, then `updatedMenu.save()` — a `TypeError`
(`null` dereference) when the id matched nothing — then the dead
`if (!updatedMenu)` check, then the 200 response.  `.error` carries the
collection state at the point the exception is thrown. -/
def tryUpdateMenu (store : MenuStore) (id : Nat) (b : UpdateBody) :
    Except MenuStore (HttpResp × MenuStore) :=
  let (updatedMenu, store₁) := findByIdAndUpdate store id b
  match updatedMenu with
  | none => .error store₁
  | some doc =>
    match saveMenuDoc store₁ doc with
    | .error _ => .error store₁
    | .ok (_, store₂) =>
      if updatedMenu.isNone then
        .ok (⟨500, str "Menu Item not updated!"⟩, store₂)
      else
        .ok (⟨200, str "Menu Item updated successfully!"⟩, store₂)

/-- `PATCH /update-menu/:id` end to end: duplicate-title middleware (update
branch), then the handler with its `catch` producing the generic 500. -/
def updateMenu (store : MenuStore) (id : Nat) (b : UpdateBody) :
    HttpResp × MenuStore :=
  if !checkDuplicateTitleUpdate store id b.titleEn b.titleBn then
    (⟨400, str "Menu item with this title already exists"⟩, store)
  else
    match tryUpdateMenu store id b with
    | .error st => (⟨500, str "Error updating menu"⟩, st)
    | .ok r => r

/-! ### The delete cascade (`DELETE /delete-menu-item/:id`) -/

/-- The effect of JavaScript `s.replace(pat, rep)` when `s.startsWith(pat)`
(the guard under which the delete handler calls it): `replace` rewrites the
first occurrence of `pat`, which is here the leading one. -/
def replaceLeading (pat rep s : Str) : Str :=
  rep ++ s.drop pat.length

/-- The per-child body of the `childUpdates` map in the delete handler.
`gpId?` is the deleted node's former `parentId`, `deletedSlug` its slug.
Root case: the child is promoted to root (slug untouched by the handler).
Non-root case: reattach to the grandparent and, when the child's slug starts
with the deleted slug, textually replace that prefix with the grandparent's
slug (`null`/missing slug read as `''`; a vanished grandparent makes the
`.slug` access throw).  Each branch ends in `child.save()`. -/
def relinkChild (store : MenuStore) (gpId? : Option Nat) (deletedSlug : Str)
    (child : MenuNode) : Except MenuStore MenuStore :=
  match gpId? with
  | none =>
    match saveMenuDoc store { child with parentId := none } with
    | .error _ => .error store
    | .ok (_, store') => .ok store'
  | some gpId =>
    let child₁ := { child with parentId := some gpId }
    let child₂? : Option MenuNode :=
      if deletedSlug.isPrefixOf child.slug then
        match findById store (some gpId) with
        | none => none
        | some gp =>
          some { child₁ with
                 slug := replaceLeading deletedSlug gp.slug child.slug }
      else
        some child₁
    match child₂? with
    | none => .error store
    | some child₂ =>
      match saveMenuDoc store child₂ with
      | .error _ => .error store
      | .ok (_, store') => .ok store'

/-- Sequenced child updates (`Promise.all(childUpdates)` of the handler,
run in program order; see the header on concurrency). -/
def cascadeChildren (gpId? : Option Nat) (deletedSlug : Str) :
    List MenuNode → MenuStore → Except MenuStore MenuStore
  | [], store => .ok store
  | c :: cs, store =>
    match relinkChild store gpId? deletedSlug c with
    | .error st => .error st
    | .ok store' => cascadeChildren gpId? deletedSlug cs store'

/-- `DELETE /delete-menu-item/:id`: look up the node, delete it, enumerate
its direct children, relink each child, and answer. -/
def deleteMenuItem (store : MenuStore) (id : Nat) :
    HttpResp × MenuStore :=
  match store.find? (fun m => m.id = id) with
  | none => (⟨404, str "Error: Menu item not found!"⟩, store)
  | some menuItem =>
    let parentMenuId := menuItem.parentId
    let parentSlug := menuItem.slug
    let store₁ := store.filter (fun m => m.id ≠ id)
    let childItems := store₁.filter (fun m => m.parentId = some id)
    if childItems.isEmpty then
      (⟨200, str "Menu item deleted successfully and no children to update!"⟩,
       store₁)
    else
      match cascadeChildren parentMenuId parentSlug childItems store₁ with
      | .error st =>
        (⟨500, str "Error deleting menu item and updating children."⟩, st)
      | .ok store₂ =>
        (⟨200,
          str "Menu item deleted successfully, and children updated accordingly!"⟩,
         store₂)

/-! ## Pages and the public resolvers (`src/src/routes/public.routes.js`)

Two variants of `GET /pages/:slug(*)` coexist in the sources: a Mongoose one
(lines 543–598, backed by the `Page` schema with `isActive` and lowercase
`status`) and a Prisma one (lines 255–292, backed by the Prisma `Page` model
whose `status` is the uppercase `Status` enum and which has no `isActive`
column). -/

inductive MPageStatus where
  | draft
  | published
  | archived
deriving DecidableEq, Repr

/-- A Mongoose `Page` document (fields the resolver touches). -/
structure MPage where
  id : Nat
  slug : Str
  isActive : Bool
  status : MPageStatus
deriving DecidableEq, Repr

/-- Strip leading and trailing `'/'` (`.replace(/^\/+|\/+$/g, '')`). -/
def stripEdgeSlashes (s : Str) : Str :=
  ((s.dropWhile (· = '/')).reverse.dropWhile (· = '/')).reverse

/-- Collapse runs of `'/'` to a single `'/'` (`.replace(/\/+/g, '/')`): a
slash directly followed by another slash is dropped. -/
def collapseSlashes : Str → Str
  | [] => []
  | [c] => [c]
  | c :: d :: rest =>
    if c = '/' && d = '/' then collapseSlashes (d :: rest)
    else c :: collapseSlashes (d :: rest)

/-- The slug normalization of the Mongoose resolver. -/
def normalizeSlug (raw : Str) : Str :=
  collapseSlashes (stripEdgeSlashes raw)

/-- The `$or` clause of the Mongoose resolver: the stored slug matches the
normalized request in exact, leading-slash or trailing-slash form, or via the
pattern `^/?slug/?$` (modelled here for normalized slugs free of regex
metacharacters, which `normalizeSlug` output built from URL path segments of
letters, digits, hyphens and slashes is). -/
def slugMatches (n stored : Str) : Bool :=
  stored = n || stored = '/' :: n || stored = n ++ ['/'] ||
    (stored = n || stored = '/' :: n || stored = n ++ ['/'] ||
     stored = '/' :: (n ++ ['/']))

/-- The Mongoose `Page.findOne` of the resolver: first document matching the
`$or` clause that is active and published. -/
def mongooseFindPage (pages : List MPage) (raw : Str) : Option MPage :=
  let n := normalizeSlug raw
  pages.find? fun p =>
    slugMatches n p.slug && p.isActive && p.status = MPageStatus.published

/-- The Mongoose `GET /pages/:slug(*)` route: 404 when nothing matches,
otherwise the (transformed) page. -/
def mongooseGetPageBySlug (pages : List MPage) (raw : Str) :
    HttpResp × Option MPage :=
  match mongooseFindPage pages raw with
  | none => (⟨404, str "Page not found"⟩, none)
  | some page => (⟨200, str "ok"⟩, some page)

/-- The Prisma `Status` enum of `prisma/schema.prisma`. -/
inductive PrismaStatus where
  | DRAFT
  | PUBLISHED
  | UNPUBLISHED
  | ARCHIVED
  | ACTIVE
  | INACTIVE
deriving DecidableEq, Repr

/-- A Prisma `Page` row (fields the resolver touches; the model has no
`isActive` column). -/
structure PrismaPage where
  id : Nat
  slug : Str
  status : PrismaStatus
deriving DecidableEq, Repr

/-- The Prisma `GET /pages/:slug(*)` route:
`prisma.page.findUnique({ where: { slug } })` on the raw parameter — no
normalization and no status filter — then 404 only when the row is absent. -/
def prismaGetPageBySlug (pages : List PrismaPage) (slug : Str) :
    HttpResp × Option PrismaPage :=
  match pages.find? (fun p => p.slug = slug) with
  | none => (⟨404, str "Page not found"⟩, none)
  | some page => (⟨200, str "ok"⟩, some page)

/-! ## The public menu renderer (`GET /menu`, Mongoose variant,
public.routes.js lines 601–669) -/

/-- The `validSlugs` set: slugs of active published pages. -/
def publishedSlugs (pages : List MPage) : List Str :=
  (pages.filter (fun p => p.isActive && p.status = MPageStatus.published)).map
    (fun p => p.slug)

/-- `item.href` read on a menu document freshly fetched from the collection:
the `Menu` schema has no `href` path, so the access yields `undefined`.  The
renderer's `isExternal: item.href?.startsWith('http') || false` therefore
reads this, not `item.url`. -/
def dbItemHref (_ : MenuNode) : Option Str := none

/-- `s?.startsWith('http') || false` on an optional string. -/
def jsOptStartsWithHttp : Option Str → Bool
  | none => false
  | some s => (str "http").isPrefixOf s

/-- A node of the rendered public menu tree. -/
inductive RenderedItem where
  | mk (node : MenuNode) (href : Str) (isExternal : Bool)
       (children : List RenderedItem)

def RenderedItem.node : RenderedItem → MenuNode
  | .mk n _ _ _ => n

def RenderedItem.href : RenderedItem → Str
  | .mk _ h _ _ => h

def RenderedItem.isExternal : RenderedItem → Bool
  | .mk _ _ e _ => e

def RenderedItem.children : RenderedItem → List RenderedItem
  | .mk _ _ _ c => c

/-- Stable insertion into a list sorted by `order` (`.sort({ order: 1 })`). -/
def insertByOrder (m : MenuNode) : List MenuNode → List MenuNode
  | [] => [m]
  | x :: xs =>
    if m.order ≤ x.order then m :: x :: xs else x :: insertByOrder m xs

def sortByOrder (l : List MenuNode) : List MenuNode :=
  l.foldr insertByOrder []

/-- The per-item annotation of `processMenuItems`: `href` is
`/pages/{slug}` when the slug is in the published-page set and `/`
otherwise; `isExternal` is computed from `item.href` as fetched (see
`dbItemHref`). -/
def processMenuItem (valid : List Str) (m : MenuNode)
    (children : List RenderedItem) : RenderedItem :=
  .mk m
    (if valid.contains m.slug then str "/pages/" ++ m.slug else str "/")
    (jsOptStartsWithHttp (dbItemHref m))
    children

/-- The recursive forest construction (`getChildren`): active nodes with the
given parent, sorted by `order`, each annotated and given its recursively
rendered children.  The recursion of the route is bounded here by fuel, set
to the store size — enough for any acyclic parent relation. -/
def buildMenuForest (menus : List MenuNode) (valid : List Str) :
    Nat → Option Nat → List RenderedItem
  | 0, _ => []
  | fuel + 1, pid? =>
    (sortByOrder (menus.filter fun m => m.isActive && m.parentId = pid?)).map
      fun m =>
        processMenuItem valid m (buildMenuForest menus valid fuel (some m.id))

/-- `GET /menu`: render the public tree from the active roots, against the
published-page slug set. -/
def renderPublicMenu (menus : List MenuNode) (pages : List MPage) :
    List RenderedItem :=
  buildMenuForest menus (publishedSlugs pages) (menus.length + 1) none

/-! ## Concrete fixtures

Small stores used by the witnesses and counterexamples below. -/

def menuAbout : MenuNode :=
  { id := 1, titleEn := str "About", titleBn := str "bn-about",
    slug := str "/about", parentId := none, isExternalLink := false,
    url := none, order := 0, isActive := true }

def menuTeam : MenuNode :=
  { id := 2, titleEn := str "Team", titleBn := str "bn-team",
    slug := str "/about/team", parentId := some 1, isExternalLink := false,
    url := none, order := 0, isActive := true }

/-- An external-link child of `menuAbout` whose slug carries the parent's
prefix. -/
def menuExtAbout : MenuNode :=
  { id := 2, titleEn := str "Ext", titleBn := str "bn-ext",
    slug := str "/about/ext", parentId := some 1, isExternalLink := true,
    url := some (str "http://example.com"), order := 0, isActive := true }

/-- A grandparent with slug `/g`. -/
def menuG : MenuNode :=
  { id := 1, titleEn := str "G", titleBn := str "bn-g",
    slug := str "/g", parentId := none, isExternalLink := false,
    url := none, order := 0, isActive := true }

/-- Middle node `/g/x`, child of `menuG`. -/
def menuGX : MenuNode :=
  { id := 2, titleEn := str "X", titleBn := str "bn-x",
    slug := str "/g/x", parentId := some 1, isExternalLink := false,
    url := none, order := 0, isActive := true }

/-- A child of `menuGX` whose stored slug (`/g/x/old`) does not agree with
its English title (`New`). -/
def menuGXChild : MenuNode :=
  { id := 3, titleEn := str "New", titleBn := str "bn-new",
    slug := str "/g/x/old", parentId := some 2, isExternalLink := false,
    url := none, order := 0, isActive := true }

/-- An external-link child of `menuG`, consistently attached (its slug
`/g/ab` is prefixed by the parent's `/g`). -/
def menuExtAB : MenuNode :=
  { id := 2, titleEn := str "AB", titleBn := str "bn-ab",
    slug := str "/g/ab", parentId := some 1, isExternalLink := true,
    url := some (str "http://e.com"), order := 0, isActive := true }

/-- A non-external child of `menuG` with a consistently derived slug
(`/g` + `/` + slugify `Ab`). -/
def menuAb : MenuNode :=
  { id := 2, titleEn := str "Ab", titleBn := str "bn-ab2",
    slug := str "/g/ab", parentId := some 1, isExternalLink := false,
    url := none, order := 0, isActive := true }

/-- A create payload whose English title has no alphanumeric characters. -/
def menuBang : MenuNode :=
  { id := 1, titleEn := str "!!!", titleBn := str "bn-bang",
    slug := [], parentId := none, isExternalLink := false,
    url := none, order := 0, isActive := true }

/-- A create payload proposing a parent whose ancestor chain contains the
payload's own id (`parentId = some 2` while the stored node 2 exists). -/
def menuCycInput : MenuNode :=
  { id := 2, titleEn := str "Cyc", titleBn := str "bn-cyc",
    slug := [], parentId := some 2, isExternalLink := false,
    url := none, order := 0, isActive := true }

/-- A create payload whose English title contains an inner punctuation
character (`a.b`). -/
def menuDotTitle : MenuNode :=
  { id := 1, titleEn := str "a.b", titleBn := str "bn-dot",
    slug := [], parentId := none, isExternalLink := false,
    url := none, order := 0, isActive := true }

/-- An update body that sets node 1 as its own parent, keeping its titles. -/
def bodySelfParent : UpdateBody :=
  { titleEn := str "About", titleBn := str "bn-about",
    parentId := some (some 1) }

/-- An update body carrying fresh titles and no other fields. -/
def bodyPlain : UpdateBody :=
  { titleEn := str "T", titleBn := str "bn-t" }

def pageAbout : MPage :=
  { id := 1, slug := str "about", isActive := true,
    status := MPageStatus.published }

def pageAboutLead : MPage :=
  { id := 1, slug := str "/about", isActive := true,
    status := MPageStatus.published }

def pageAboutTrail : MPage :=
  { id := 1, slug := str "about/", isActive := true,
    status := MPageStatus.published }

def pageAboutBoth : MPage :=
  { id := 1, slug := str "/about/", isActive := true,
    status := MPageStatus.published }

/-- An inactive-variant page: slug matches but the page is a draft. -/
def pageDraftAbout : MPage :=
  { id := 1, slug := str "about", isActive := true,
    status := MPageStatus.draft }

/-- The same page as a Prisma row, status `DRAFT`. -/
def prismaDraftAbout : PrismaPage :=
  { id := 1, slug := str "about", status := PrismaStatus.DRAFT }

/-- An active root menu node whose slug matches `pageAbout`. -/
def menuRootA : MenuNode :=
  { id := 1, titleEn := str "A", titleBn := str "bn-ra",
    slug := str "about", parentId := none, isExternalLink := false,
    url := none, order := 0, isActive := true }

/-- An active external-link root node whose slug matches no page and whose
url starts with `http`. -/
def menuRootB : MenuNode :=
  { id := 2, titleEn := str "B", titleBn := str "bn-rb",
    slug := str "/b", parentId := none, isExternalLink := true,
    url := some (str "http://x.com"), order := 1, isActive := true }

/-! ## Supporting lemmas -/

/-- The validator's walk finds `selfId` whenever it occurs in the ancestor
chain of the proposed parent (same fuel on both sides). -/
theorem cycleWalk_true_of_mem_ancestorChain (store : MenuStore)
    (selfId : Nat) :
    ∀ (fuel : Nat) (pid? : Option Nat),
      selfId ∈ ancestorChain store pid? fuel →
      ∃ p, findById store pid? = some p ∧
        cycleWalk store selfId p fuel = true := by
  intro fuel
  induction fuel with
  | zero => intro pid? h; simp [ancestorChain] at h
  | succ f ih =>
    intro pid? h
    match pid? with
    | none => simp [ancestorChain] at h
    | some v =>
      simp only [ancestorChain] at h
      cases hf : findById store (some v) with
      | none => rw [hf] at h; simp at h
      | some p =>
        rw [hf] at h
        refine ⟨p, rfl, ?_⟩
        simp only [List.mem_cons] at h
        rcases h with h | h
        · simp [cycleWalk, h.symm]
        · obtain ⟨q, hq, hwalk⟩ := ih p.parentId h
          by_cases hps : p.id = selfId
          · simp [cycleWalk, hps]
          · simp [cycleWalk, hps, hq, hwalk]

/-- Membership of the node's own id in the proposed parent's ancestor chain
makes the `parentId` validator reject. -/
theorem validateParentId_false_of_mem (store : MenuStore) (selfId : Nat)
    (pid? : Option Nat)
    (h : selfId ∈ ancestorChain store pid? store.length) :
    validateParentId store selfId pid? = false := by
  obtain ⟨p, hp, hwalk⟩ := cycleWalk_true_of_mem_ancestorChain store selfId
    store.length pid? h
  match pid? with
  | none => simp [findById] at hp
  | some v =>
    simp only [validateParentId, hp]
    by_cases hv : v = selfId
    · simp [hv]
    · simp [hv, hwalk]

/-- Replacing the document with a given id by a document carrying the same
id commutes with `find?` by that id. -/
theorem find?_map_update (store : MenuStore) (id : Nat) (n : MenuNode)
    (hn : n.id = id) (h : (store.find? (fun x => x.id = id)).isSome) :
    (store.map (fun x => if x.id = id then n else x)).find?
      (fun x => x.id = id) = some n := by
  induction store with
  | nil => simp [List.find?] at h
  | cons x xs ih =>
    by_cases hx : x.id = id
    · simp [List.find?, hx, hn]
    · simp only [List.map_cons, if_neg hx]
      rw [List.find?_cons_of_neg _ (by simp [hx]),
        ih (by rwa [List.find?_cons_of_neg _ (by simp [hx])] at h)]

/-! ## Claim C1 — cycle validation versus write ordering -/

/-- Claim C1 (amended): when the node's own id appears in the ancestor chain
walked upward from the proposed parent, the create operation fails with the
save-time validation error and the store is left unmodified (the validator
runs before the insert); the update route, however, persists the body via
`findByIdAndUpdate` (which runs no validators) *before* `save()` validates,
so — shown here for the direct self-reference — the request still fails
(500) but the cyclic `parentId` has already been written. -/
theorem cycle_rejected_create_but_update_writes :
    (∀ (store : MenuStore) (input : MenuNode),
       input.id ∈ ancestorChain store input.parentId store.length →
       (createMenu store input).2 = store ∧
       (createMenu store input).1.status ≠ 201) ∧
    (∀ (store : MenuStore) (id : Nat) (b : UpdateBody) (m : MenuNode),
       store.find? (fun x => x.id = id) = some m →
       b.parentId = some (some id) →
       checkDuplicateTitleUpdate store id b.titleEn b.titleBn = true →
       (applyBody b m).parentId = some id ∧
       updateMenu store id b =
         (⟨500, str "Error updating menu"⟩,
          store.map (fun x => if x.id = id then applyBody b m else x)) ∧
       (store.map (fun x => if x.id = id then applyBody b m else x)).find?
           (fun x => x.id = id) = some (applyBody b m)) := by
  constructor
  · intro store input h
    have hval := validateParentId_false_of_mem store input.id input.parentId h
    unfold createMenu
    by_cases h1 : createInputValid input
    · by_cases h2 : checkDuplicateTitleCreate store input.titleEn input.titleBn
      · simp [h1, h2, saveMenuDoc, hval]
      · simp [h1, h2]
    · simp [h1]
  · intro store id b m hfind hpid hdup
    have hmid : m.id = id := by simpa using List.find?_some hfind
    have hmid' : (applyBody b m).id = id := by simp [applyBody, hmid]
    have hfind' := find?_map_update store id (applyBody b m) hmid'
      (by simp [hfind])
    refine ⟨by simp [applyBody, hpid], ?_, hfind'⟩
    unfold updateMenu tryUpdateMenu findByIdAndUpdate
    simp only [hdup, Bool.not_true, hfind]
    have hval : validateParentId
        (store.map (fun x => if x.id = id then applyBody b m else x))
        (applyBody b m).id (applyBody b m).parentId = false := by
      rw [hmid', show (applyBody b m).parentId = some id by
        simp [applyBody, hpid]]
      simp only [validateParentId, findById, hfind']
      simp
    simp [saveMenuDoc, hval]

/-- Witness for C1: both parts applied at concrete stores — a create against
`[menuG, menuGX]` proposing the cyclic parent 2, and the self-parent update
of node 1 in `[menuAbout]`. -/
theorem cycle_rejected_create_but_update_writes_witness :
    ((createMenu [menuG, menuGX] menuCycInput).2 = [menuG, menuGX] ∧
     (createMenu [menuG, menuGX] menuCycInput).1.status ≠ 201) ∧
    ((applyBody bodySelfParent menuAbout).parentId = some 1 ∧
     updateMenu [menuAbout] 1 bodySelfParent =
       (⟨500, str "Error updating menu"⟩,
        [menuAbout].map
          (fun x => if x.id = 1 then applyBody bodySelfParent menuAbout else x)) ∧
     ([menuAbout].map
          (fun x => if x.id = 1 then applyBody bodySelfParent menuAbout else x)).find?
         (fun x => x.id = 1) = some (applyBody bodySelfParent menuAbout)) :=
  ⟨cycle_rejected_create_but_update_writes.1 [menuG, menuGX] menuCycInput
     (by decide),
   cycle_rejected_create_but_update_writes.2 [menuAbout] 1 bodySelfParent
     menuAbout (by decide) (by decide) (by decide)⟩

/-- Counterexample for C1 as frozen: on the store `[menuAbout]`, the update
setting node 1 as its own parent fails (500), yet the store is *not* left
unmodified — the self-referential `parentId` is persisted. -/
theorem cycle_update_leaves_store_modified :
    1 ∈ ancestorChain [menuAbout] (some 1) 1 ∧
    (updateMenu [menuAbout] 1 bodySelfParent).1.status = 500 ∧
    (updateMenu [menuAbout] 1 bodySelfParent).2 ≠ [menuAbout] ∧
    findById (updateMenu [menuAbout] 1 bodySelfParent).2 (some 1) =
      some { menuAbout with parentId := some 1 } := by
  refine ⟨by decide, by decide, by decide, by decide⟩

/-! ## Claim C10 — update of a missing id -/

/-- Claim C10: for `PATCH /update-menu/:id` with an id matching no document
(and a body passing the duplicate-title middleware), the response is the
catch-all 500 — `findByIdAndUpdate` returns `null` and the following
`updatedMenu.save()` dereferences it — never a 404; and on *every* input the
post-save `Menu Item not updated!` branch is unreachable. -/
theorem update_missing_id_yields_500 :
    (∀ (store : MenuStore) (id : Nat) (b : UpdateBody),
       (updateMenu store id b).1.msg ≠ str "Menu Item not updated!" ∧
       (updateMenu store id b).1.status ≠ 404) ∧
    (∀ (store : MenuStore) (id : Nat) (b : UpdateBody),
       store.find? (fun x => x.id = id) = none →
       checkDuplicateTitleUpdate store id b.titleEn b.titleBn = true →
       updateMenu store id b = (⟨500, str "Error updating menu"⟩, store)) := by
  constructor
  · intro store id b
    have hcases : (updateMenu store id b).1 =
          ⟨400, str "Menu item with this title already exists"⟩ ∨
        (updateMenu store id b).1 = ⟨500, str "Error updating menu"⟩ ∨
        (updateMenu store id b).1 =
          ⟨200, str "Menu Item updated successfully!"⟩ := by
      unfold updateMenu tryUpdateMenu findByIdAndUpdate
      by_cases hdup : checkDuplicateTitleUpdate store id b.titleEn b.titleBn
      · simp only [hdup, Bool.not_true]
        cases hfind : store.find? (fun x => x.id = id) with
        | none => simp
        | some m =>
          cases hsave : saveMenuDoc
              (store.map (fun x => if x.id = id then applyBody b m else x))
              (applyBody b m) with
          | error e => simp [hsave]
          | ok r => simp [hsave]
      · simp [hdup]
    rcases hcases with h | h | h <;> rw [h] <;> exact ⟨by decide, by decide⟩
  · intro store id b hfind hdup
    unfold updateMenu tryUpdateMenu findByIdAndUpdate
    simp [hdup, hfind]

/-- Witness for C10: both parts at a concrete store and missing id 99. -/
theorem update_missing_id_yields_500_witness :
    ((updateMenu [menuAbout] 99 bodyPlain).1.msg ≠
       str "Menu Item not updated!" ∧
     (updateMenu [menuAbout] 99 bodyPlain).1.status ≠ 404) ∧
    updateMenu [menuAbout] 99 bodyPlain =
      (⟨500, str "Error updating menu"⟩, [menuAbout]) :=
  ⟨update_missing_id_yields_500.1 [menuAbout] 99 bodyPlain,
   update_missing_id_yields_500.2 [menuAbout] 99 bodyPlain
     (by decide) (by decide)⟩

/-! ## Lemmas on the save pipeline and the cascade step -/

/-- `save()` on a non-external document attached to a found parent: the hook
regenerates the slug as the parent's slug, a slash, and the slugified English
title — whatever slug the document carried before. -/
theorem saveMenuDoc_nonexternal_parent (store : MenuStore) (n : MenuNode)
    (gpId : Nat) (gp : MenuNode)
    (hpar : n.parentId = some gpId)
    (hext : n.isExternalLink = false) (hurl : jsTruthyStr n.url = false)
    (hgp : findById store (some gpId) = some gp)
    (hself : gpId ≠ n.id)
    (hval : validateParentId store n.id (some gpId) = true)
    (huniq : uniqueIndexesOk store
      { n with slug :=
          ensureLeadingSlash (gp.slug ++ '/' :: slugifyLS n.titleEn) } = true) :
    saveMenuDoc store n =
      .ok ({ n with slug :=
               ensureLeadingSlash (gp.slug ++ '/' :: slugifyLS n.titleEn) },
           upsert store
             { n with slug :=
                 ensureLeadingSlash (gp.slug ++ '/' :: slugifyLS n.titleEn) }) := by
  have hne : (some gpId : Option Nat) ≠ some n.id := by simpa using hself
  unfold saveMenuDoc menuPreSave
  rw [hpar] at huniq ⊢
  simp only [hext] at huniq ⊢
  simp [hval, hurl, hgp, hne, huniq]

/-- `save()` on a non-external root document: the hook regenerates the slug
from the title alone, with the leading slash forced. -/
theorem saveMenuDoc_nonexternal_root (store : MenuStore) (n : MenuNode)
    (hpar : n.parentId = none)
    (hext : n.isExternalLink = false) (hurl : jsTruthyStr n.url = false)
    (huniq : uniqueIndexesOk store
      { n with slug := ensureLeadingSlash (slugifyLS n.titleEn) } = true) :
    saveMenuDoc store n =
      .ok ({ n with slug := ensureLeadingSlash (slugifyLS n.titleEn) },
           upsert store
             { n with slug := ensureLeadingSlash (slugifyLS n.titleEn) }) := by
  unfold saveMenuDoc menuPreSave
  rw [hpar] at huniq ⊢
  simp only [hext] at huniq ⊢
  simp [validateParentId, hurl, huniq]

/-- `save()` on an external-link document: the hook is skipped, the document
is stored as-is. -/
theorem saveMenuDoc_external (store : MenuStore) (n : MenuNode)
    (hskip : (n.isExternalLink || jsTruthyStr n.url) = true)
    (hval : validateParentId store n.id n.parentId = true)
    (huniq : uniqueIndexesOk store n = true) :
    saveMenuDoc store n = .ok (n, upsert store n) := by
  unfold saveMenuDoc menuPreSave
  simp [hval, hskip, huniq]

/-- Replacing the occupant of an id by itself is the identity when no other
element carries that id. -/
theorem map_update_self (store : MenuStore) (n : MenuNode)
    (hOnly : ∀ m ∈ store, m.id = n.id → m = n) :
    store.map (fun m => if m.id = n.id then n else m) = store := by
  induction store with
  | nil => rfl
  | cons x xs ih =>
    simp only [List.map_cons, List.cons.injEq]
    constructor
    · by_cases hx : x.id = n.id
      · rw [if_pos hx, hOnly x (by simp) hx]
      · rw [if_neg hx]
    · exact ih (fun m hm => hOnly m (by simp [hm]))

/-- Writing back an unchanged document leaves the collection unchanged. -/
theorem upsert_self (store : MenuStore) (n : MenuNode)
    (hmem : n ∈ store)
    (hOnly : ∀ m ∈ store, m.id = n.id → m = n) :
    upsert store n = store := by
  unfold upsert
  rw [if_pos, map_update_self store n hOnly]
  exact List.any_eq_true.mpr ⟨n, hmem, by simp⟩

/-! ## Claim C2 — non-root delete cascade, per-child effect -/

/-- Claim C2 (amended): deleting a non-root node reattaches each child to the
grandparent; an *external-link* child whose slug starts with the deleted slug
gets the textual prefix replacement (grandparent slug for deleted slug); a
*non-external* child instead has its slug regenerated by the save hook as
grandparentSlug + `/` + slugify(titleEn) — these coincide exactly when the
child's slug was derived as deletedSlug + `/` + slugify(titleEn) and the
grandparent's slug is slash-led. -/
theorem delete_cascade_child_nonroot :
    (∀ (store : MenuStore) (gpId : Nat) (gp : MenuNode) (ds : Str)
       (child : MenuNode),
       findById store (some gpId) = some gp →
       child.isExternalLink = false → jsTruthyStr child.url = false →
       gpId ≠ child.id →
       validateParentId store child.id (some gpId) = true →
       uniqueIndexesOk store
         { child with
           parentId := some gpId,
           slug := ensureLeadingSlash
             (gp.slug ++ '/' :: slugifyLS child.titleEn) } = true →
       relinkChild store (some gpId) ds child =
         .ok (upsert store
           { child with
             parentId := some gpId,
             slug := ensureLeadingSlash
               (gp.slug ++ '/' :: slugifyLS child.titleEn) })) ∧
    (∀ (store : MenuStore) (gpId : Nat) (gp : MenuNode) (ds : Str)
       (child : MenuNode),
       findById store (some gpId) = some gp →
       (child.isExternalLink || jsTruthyStr child.url) = true →
       validateParentId store child.id (some gpId) = true →
       uniqueIndexesOk store
         { child with
           parentId := some gpId,
           slug := if ds.isPrefixOf child.slug then
               replaceLeading ds gp.slug child.slug
             else child.slug } = true →
       relinkChild store (some gpId) ds child =
         .ok (upsert store
           { child with
             parentId := some gpId,
             slug := if ds.isPrefixOf child.slug then
                 replaceLeading ds gp.slug child.slug
               else child.slug })) ∧
    (∀ (gp : MenuNode) (ds : Str) (child : MenuNode),
       child.slug = ds ++ '/' :: slugifyLS child.titleEn →
       gp.slug.head? = some '/' →
       ensureLeadingSlash (gp.slug ++ '/' :: slugifyLS child.titleEn) =
         replaceLeading ds gp.slug child.slug) := by
  refine ⟨?_, ?_, ?_⟩
  · intro store gpId gp ds child hgp hext hurl hself hval huniq
    unfold relinkChild
    by_cases hpre : ds.isPrefixOf child.slug
    · have hsave := saveMenuDoc_nonexternal_parent store
        { child with
          parentId := some gpId,
          slug := replaceLeading ds gp.slug child.slug } gpId gp rfl hext hurl
        hgp hself hval huniq
      simp [hpre, hgp, hsave]
    · have hsave := saveMenuDoc_nonexternal_parent store
        { child with parentId := some gpId } gpId gp rfl hext hurl
        hgp hself hval huniq
      simp [hpre, hsave]
  · intro store gpId gp ds child hgp hskip hval huniq
    unfold relinkChild
    by_cases hpre : ds.isPrefixOf child.slug
    · have hsave := saveMenuDoc_external store
        { child with
          parentId := some gpId,
          slug := replaceLeading ds gp.slug child.slug } hskip hval
        (by simpa [hpre] using huniq)
      simp [hpre, hgp, hsave]
    · have hsave := saveMenuDoc_external store
        { child with parentId := some gpId } hskip hval
        (by simpa [hpre] using huniq)
      simp [hpre, hsave]
  · intro gp ds child hcons hlead
    rw [replaceLeading, hcons, List.drop_left]
    unfold ensureLeadingSlash
    cases hgs : gp.slug with
    | nil => simp [hgs] at hlead
    | cons c rest =>
      rw [hgs] at hlead
      simp only [List.head?_cons, Option.some.injEq] at hlead
      simp [hlead]

/-- Witness for C2: the three parts applied at concrete inputs — a
non-external child (`menuGXChild`, title `New`) relinked under grandparent
`menuG`, the external child `menuExtAB`, and the coincidence instance for the
consistently derived `menuTeam`. -/
theorem delete_cascade_child_nonroot_witness :
    relinkChild [menuG] (some 1) (str "/g/x") menuGXChild =
      .ok (upsert [menuG]
        { menuGXChild with
          parentId := some 1,
          slug := ensureLeadingSlash
            (menuG.slug ++ '/' :: slugifyLS menuGXChild.titleEn) }) ∧
    relinkChild [menuG] (some 1) (str "/g/a") menuExtAB =
      .ok (upsert [menuG]
        { menuExtAB with
          parentId := some 1,
          slug := if (str "/g/a").isPrefixOf menuExtAB.slug then
              replaceLeading (str "/g/a") menuG.slug menuExtAB.slug
            else menuExtAB.slug }) ∧
    ensureLeadingSlash (menuG.slug ++ '/' :: slugifyLS menuTeam.titleEn) =
      replaceLeading (str "/about") menuG.slug menuTeam.slug :=
  ⟨delete_cascade_child_nonroot.1 [menuG] 1 menuG (str "/g/x") menuGXChild
     (by decide) (by decide) (by decide) (by decide) (by decide) (by decide),
   delete_cascade_child_nonroot.2.1 [menuG] 1 menuG (str "/g/a") menuExtAB
     (by decide) (by decide) (by decide) (by decide),
   delete_cascade_child_nonroot.2.2 menuG (str "/about") menuTeam
     (by decide) (by decide)⟩

/-- Counterexample for C2 as frozen: deleting `/g/x` (node 2) with child
`menuGXChild` (slug `/g/x/old`, title `New`, non-external) stores the
hook-regenerated slug `/g/new`, not the textual prefix replacement `/g/old`
the claim prescribes, even though the child's slug does start with the
deleted node's slug. -/
theorem delete_cascade_ignores_old_slug :
    menuGXChild.isExternalLink = false ∧
    (str "/g/x").isPrefixOf menuGXChild.slug = true ∧
    (deleteMenuItem [menuG, menuGX, menuGXChild] 2).2 =
      [menuG, { menuGXChild with parentId := some 1, slug := str "/g/new" }] ∧
    replaceLeading (str "/g/x") menuG.slug menuGXChild.slug = str "/g/old" ∧
    str "/g/new" ≠ str "/g/old" := by
  refine ⟨by decide, by decide, by decide, by decide, by decide⟩

/-! ## Claim C3 — root delete promotes children -/

/-- Claim C3 (amended): deleting a root node promotes every child to root
(`parentId` null); the handler's root branch leaves slugs untouched, so a
non-external child's slug is regenerated from its title by the save hook — a
slugified English title behind a leading slash, which strips the deleted
node's prefix whenever the slug was derived from the titles — while an
external-link child keeps its stored slug, prefix included.  The About/Team
scenario holds: deleting root `About` (`/about`) leaves `Team` a root node
with slug `/team`. -/
theorem delete_root_promotes_children :
    (∀ (store : MenuStore) (ds : Str) (child : MenuNode),
       child.isExternalLink = false → jsTruthyStr child.url = false →
       uniqueIndexesOk store
         { child with
           parentId := none,
           slug := ensureLeadingSlash (slugifyLS child.titleEn) } = true →
       relinkChild store none ds child =
         .ok (upsert store
           { child with
             parentId := none,
             slug := ensureLeadingSlash (slugifyLS child.titleEn) })) ∧
    (∀ (store : MenuStore) (ds : Str) (child : MenuNode),
       (child.isExternalLink || jsTruthyStr child.url) = true →
       uniqueIndexesOk store { child with parentId := none } = true →
       relinkChild store none ds child =
         .ok (upsert store { child with parentId := none })) ∧
    deleteMenuItem [menuAbout, menuTeam] 1 =
      (⟨200,
        str "Menu item deleted successfully, and children updated accordingly!"⟩,
       [{ menuTeam with parentId := none, slug := str "/team" }]) := by
  refine ⟨?_, ?_, by decide⟩
  · intro store ds child hext hurl huniq
    have hsave := saveMenuDoc_nonexternal_root store
      { child with parentId := none } rfl hext hurl huniq
    unfold relinkChild
    simp [hsave]
  · intro store ds child hskip huniq
    have hsave := saveMenuDoc_external store
      { child with parentId := none } hskip rfl huniq
    unfold relinkChild
    simp [hsave]

/-- Witness for C3: the two universal parts applied to the children
`menuTeam` (non-external) and `menuExtAbout` (external) over the empty
residual store. -/
theorem delete_root_promotes_children_witness :
    relinkChild [] none (str "/about") menuTeam =
      .ok (upsert []
        { menuTeam with
          parentId := none,
          slug := ensureLeadingSlash (slugifyLS menuTeam.titleEn) }) ∧
    relinkChild [] none (str "/about") menuExtAbout =
      .ok (upsert [] { menuExtAbout with parentId := none }) :=
  ⟨delete_root_promotes_children.1 [] (str "/about") menuTeam
     (by decide) (by decide) (by decide),
   delete_root_promotes_children.2.1 [] (str "/about") menuExtAbout
     (by decide) (by decide)⟩

/-- Counterexample for C3 as frozen: deleting the root `About` with the
external-link child `menuExtAbout` (slug `/about/ext`) promotes the child to
root but leaves its slug carrying the deleted node's prefix `/about` — the
prefix is not stripped. -/
theorem delete_root_keeps_external_child_slug :
    menuAbout.parentId = none ∧
    (deleteMenuItem [menuAbout, menuExtAbout] 1).2 =
      [{ menuExtAbout with parentId := none }] ∧
    ({ menuExtAbout with parentId := none } : MenuNode).slug =
      str "/about/ext" ∧
    (str "/about").isPrefixOf (str "/about/ext") = true ∧
    menuAbout.slug = str "/about" := by
  refine ⟨by decide, by decide, by decide, by decide, by decide⟩

/-! ## Claim C8 — idempotence of the relink step -/

/-- Claim C8 (amended): on an already-consistent non-external child — stored
once, attached to the effective parent, slug derived as the parent's
slash-led slug plus `/` plus the slugified title — re-running the per-child
relink step of the delete cascade changes no stored node.  (For external-link
children the step is not idempotent; see the counterexample.) -/
theorem relink_idempotent_nonexternal :
    ∀ (store : MenuStore) (gpId : Nat) (gp : MenuNode) (ds : Str)
      (child : MenuNode),
      findById store (some gpId) = some gp →
      child ∈ store →
      (∀ m ∈ store, m.id = child.id → m = child) →
      child.isExternalLink = false → jsTruthyStr child.url = false →
      child.parentId = some gpId →
      gp.slug.head? = some '/' →
      child.slug = gp.slug ++ '/' :: slugifyLS child.titleEn →
      gpId ≠ child.id →
      validateParentId store child.id (some gpId) = true →
      uniqueIndexesOk store child = true →
      relinkChild store (some gpId) ds child = .ok store := by
  intro store gpId gp ds child hgp hmem hOnly hext hurl hpar hlead hcons hself
    hval huniq
  have hslug : ensureLeadingSlash (gp.slug ++ '/' :: slugifyLS child.titleEn) =
      child.slug := by
    rw [hcons]
    unfold ensureLeadingSlash
    cases hgs : gp.slug with
    | nil => rw [hgs] at hlead; simp at hlead
    | cons c rest =>
      rw [hgs] at hlead
      simp only [List.head?_cons, Option.some.injEq] at hlead
      simp [hlead]
  have hnew : ({ child with
      parentId := some gpId,
      slug := ensureLeadingSlash
        (gp.slug ++ '/' :: slugifyLS child.titleEn) } : MenuNode) = child := by
    rw [hslug, ← hpar]
  rw [delete_cascade_child_nonroot.1 store gpId gp ds child hgp hext hurl
    hself hval (by rw [hnew]; exact huniq)]
  rw [hnew, upsert_self store child hmem hOnly]

/-- Witness for C8: the consistent non-external child `menuAb` under parent
`menuG`; re-running the relink step against deleted slug `/g/a` leaves the
store `[menuG, menuAb]` unchanged. -/
theorem relink_idempotent_nonexternal_witness :
    relinkChild [menuG, menuAb] (some 1) (str "/g/a") menuAb =
      .ok [menuG, menuAb] :=
  relink_idempotent_nonexternal [menuG, menuAb] 1 menuG (str "/g/a") menuAb
    (by decide) (by decide) (by decide) (by decide) (by decide) (by decide)
    (by decide) (by decide) (by decide) (by decide) (by decide)

/-- Counterexample for C8 as frozen: the external-link child `menuExtAB` is
consistent — attached to `menuG` with a slug correctly prefixed by `/g` —
yet re-running the relink step with deleted slug `/g/a` (a prefix of
`/g/ab`) rewrites the stored slug to `/gb`: the cascade step is not a no-op
on this consistent subtree. -/
theorem relink_not_idempotent_external :
    menuExtAB.parentId = some 1 ∧
    menuG.slug.isPrefixOf menuExtAB.slug = true ∧
    relinkChild [menuG, menuExtAB] (some 1) (str "/g/a") menuExtAB =
      .ok [menuG, { menuExtAB with slug := str "/gb" }] ∧
    [menuG, { menuExtAB with slug := str "/gb" }] ≠ [menuG, menuExtAB] := by
  refine ⟨by decide, by decide, by rfl, by decide⟩

end WbbCms

namespace WbbCms

/-! ## Character-level lemmas for the slug generator

The `slugify` model produces only lowercase alphanumerics and hyphens, never
a slash, and neither starts nor ends with a hyphen. -/


theorem mem_collapseWsToHyphen :
    ∀ (l : Str) (c : Char), c ∈ collapseWsToHyphen l →
      c = '-' ∨ (c ∈ l ∧ isWsChar c = false)
  | [], c, h => by simp [collapseWsToHyphen] at h
  | [d], c, h => by
    simp only [collapseWsToHyphen] at h
    by_cases hw : isWsChar d
    · rw [if_pos hw] at h
      simp at h
      exact .inl h
    · rw [if_neg hw] at h
      simp at h
      subst h
      exact .inr ⟨by simp, by simpa using hw⟩
  | a :: b :: rest, c, h => by
    simp only [collapseWsToHyphen] at h
    by_cases hwa : isWsChar a
    · by_cases hwb : isWsChar b
      · rw [if_pos hwa, if_pos hwb] at h
        rcases mem_collapseWsToHyphen (b :: rest) c h with h' | h'
        · exact .inl h'
        · exact .inr ⟨by simp [h'.1], h'.2⟩
      · rw [if_pos hwa, if_neg hwb] at h
        rcases List.mem_cons.1 h with h' | h'
        · exact .inl h'
        · rcases mem_collapseWsToHyphen (b :: rest) c h' with h'' | h''
          · exact .inl h''
          · exact .inr ⟨by simp [h''.1], h''.2⟩
    · rw [if_neg hwa] at h
      rcases List.mem_cons.1 h with h' | h'
      · subst h'
        exact .inr ⟨by simp, by simpa using hwa⟩
      · rcases mem_collapseWsToHyphen (b :: rest) c h' with h'' | h''
        · exact .inl h''
        · exact .inr ⟨by simp [h''.1], h''.2⟩

theorem collapseWsToHyphen_ne_nil :
    ∀ (l : Str), l ≠ [] → collapseWsToHyphen l ≠ []
  | [], h => absurd rfl h
  | [d], _ => by
    simp only [collapseWsToHyphen]
    by_cases hw : isWsChar d <;> simp [hw]
  | a :: b :: rest, _ => by
    simp only [collapseWsToHyphen]
    by_cases hwa : isWsChar a
    · by_cases hwb : isWsChar b
      · rw [if_pos hwa, if_pos hwb]
        exact collapseWsToHyphen_ne_nil (b :: rest) (by simp)
      · rw [if_pos hwa, if_neg hwb]; simp
    · rw [if_neg hwa]; simp

theorem head?_collapseWsToHyphen_hyphen (l : Str)
    (h : (collapseWsToHyphen l).head? = some '-') :
    ∃ a, l.head? = some a ∧ (isWsChar a = true ∨ a = '-') := by
  match l with
  | [] => simp [collapseWsToHyphen] at h
  | [d] =>
    by_cases hw : isWsChar d
    · exact ⟨d, rfl, .inl hw⟩
    · simp only [collapseWsToHyphen, if_neg hw, List.head?_cons,
        Option.some.injEq] at h
      exact ⟨d, rfl, .inr h⟩
  | a :: b :: rest =>
    by_cases hwa : isWsChar a
    · exact ⟨a, rfl, .inl hwa⟩
    · simp only [collapseWsToHyphen, if_neg hwa, List.head?_cons,
        Option.some.injEq] at h
      exact ⟨a, rfl, .inr h⟩

theorem getLast?_collapseWsToHyphen_hyphen :
    ∀ (l : Str), (collapseWsToHyphen l).getLast? = some '-' →
      ∃ a, l.getLast? = some a ∧ (isWsChar a = true ∨ a = '-')
  | [], h => by simp [collapseWsToHyphen] at h
  | [d], h => by
    by_cases hw : isWsChar d
    · exact ⟨d, rfl, .inl hw⟩
    · simp only [collapseWsToHyphen, if_neg hw] at h
      simp at h
      exact ⟨d, rfl, .inr h⟩
  | a :: b :: rest, h => by
    have hbr : (a :: b :: rest).getLast? = (b :: rest).getLast? := rfl
    by_cases hwa : isWsChar a
    · by_cases hwb : isWsChar b
      · rw [show collapseWsToHyphen (a :: b :: rest) =
            collapseWsToHyphen (b :: rest) by
          simp only [collapseWsToHyphen, if_pos hwa, if_pos hwb]] at h
        obtain ⟨x, hx, hc⟩ := getLast?_collapseWsToHyphen_hyphen (b :: rest) h
        exact ⟨x, by rw [hbr, hx], hc⟩
      · rw [show collapseWsToHyphen (a :: b :: rest) =
            '-' :: collapseWsToHyphen (b :: rest) by
          simp only [collapseWsToHyphen, if_pos hwa, if_neg hwb]] at h
        have hne := collapseWsToHyphen_ne_nil (b :: rest) (by simp)
        cases hx : collapseWsToHyphen (b :: rest) with
        | nil => exact absurd hx hne
        | cons y ys =>
          rw [hx] at h
          rw [show ('-' :: y :: ys).getLast? = (y :: ys).getLast? from rfl] at h
          rw [← hx] at h
          obtain ⟨x, hgx, hc⟩ := getLast?_collapseWsToHyphen_hyphen (b :: rest) h
          exact ⟨x, by rw [hbr, hgx], hc⟩
    · rw [show collapseWsToHyphen (a :: b :: rest) =
          a :: collapseWsToHyphen (b :: rest) by
        simp only [collapseWsToHyphen, if_neg hwa]] at h
      have hne := collapseWsToHyphen_ne_nil (b :: rest) (by simp)
      cases hx : collapseWsToHyphen (b :: rest) with
      | nil => exact absurd hx hne
      | cons y ys =>
        rw [hx] at h
        rw [show (a :: y :: ys).getLast? = (y :: ys).getLast? from rfl] at h
        rw [← hx] at h
        obtain ⟨x, hgx, hc⟩ := getLast?_collapseWsToHyphen_hyphen (b :: rest) h
        exact ⟨x, by rw [hbr, hgx], hc⟩



theorem head?_dropWhile_false (l : Str) (p : Char → Bool) (c : Char)
    (h : (l.dropWhile p).head? = some c) : p c = false := by
  induction l with
  | nil => simp [List.dropWhile] at h
  | cons a as ih =>
    rw [List.dropWhile_cons] at h
    by_cases ha : p a
    · simp [ha] at h; exact ih h
    · simp [ha] at h; rw [← h]; simpa using ha

theorem mem_trimWs (l : Str) (c : Char) (h : c ∈ trimWs l) : c ∈ l := by
  unfold trimWs at h
  rw [List.mem_reverse] at h
  have h1 := (List.dropWhile_sublist isWsChar).subset h
  rw [List.mem_reverse] at h1
  exact (List.dropWhile_sublist isWsChar).subset h1

theorem head?_trimWs_not_ws (l : Str) (c : Char)
    (h : (trimWs l).head? = some c) : isWsChar c = false := by
  unfold trimWs at h
  rw [List.head?_reverse] at h
  have hsuf : ((l.dropWhile isWsChar).reverse.dropWhile isWsChar) <:+
      (l.dropWhile isWsChar).reverse := List.dropWhile_suffix isWsChar
  obtain ⟨t, ht⟩ := hsuf
  have hne : ((l.dropWhile isWsChar).reverse.dropWhile isWsChar) ≠ [] := by
    intro hnil
    rw [hnil] at h
    simp at h
  have h2 : (l.dropWhile isWsChar).reverse.getLast? = some c := by
    rw [← ht]
    rw [List.getLast?_append_of_ne_nil _ hne]
    exact h
  rw [List.getLast?_reverse] at h2
  exact head?_dropWhile_false l isWsChar c h2

theorem getLast?_trimWs_not_ws (l : Str) (c : Char)
    (h : (trimWs l).getLast? = some c) : isWsChar c = false := by
  unfold trimWs at h
  rw [List.getLast?_reverse] at h
  exact head?_dropWhile_false _ _ _ h



theorem toNat_charOfNat (n : Nat) (h : n.isValidChar) :
    (Char.ofNat n).toNat = n := by
  unfold Char.ofNat
  rw [dif_pos h]
  simp [Char.ofNatAux, Char.toNat, UInt32.toNat, BitVec.toNat_ofNatLt]

theorem char_isLower_iff (c : Char) :
    c.isLower = true ↔ 97 ≤ c.toNat ∧ c.toNat ≤ 122 := by
  rw [Char.isLower, Bool.and_eq_true, decide_eq_true_iff, decide_eq_true_iff]
  exact ⟨fun ⟨h1, h2⟩ => ⟨h1, h2⟩, fun ⟨h1, h2⟩ => ⟨h1, h2⟩⟩

theorem char_isDigit_iff (c : Char) :
    c.isDigit = true ↔ 48 ≤ c.toNat ∧ c.toNat ≤ 57 := by
  rw [Char.isDigit, Bool.and_eq_true, decide_eq_true_iff, decide_eq_true_iff]
  exact ⟨fun ⟨h1, h2⟩ => ⟨h1, h2⟩, fun ⟨h1, h2⟩ => ⟨h1, h2⟩⟩

theorem char_isUpper_iff (c : Char) :
    c.isUpper = true ↔ 65 ≤ c.toNat ∧ c.toNat ≤ 90 := by
  rw [Char.isUpper, Bool.and_eq_true, decide_eq_true_iff, decide_eq_true_iff]
  exact ⟨fun ⟨h1, h2⟩ => ⟨h1, h2⟩, fun ⟨h1, h2⟩ => ⟨h1, h2⟩⟩

theorem toLower_toNat_range (c : Char) (h : c.isAlphanum = true) :
    (48 ≤ c.toLower.toNat ∧ c.toLower.toNat ≤ 57) ∨
      (97 ≤ c.toLower.toNat ∧ c.toLower.toNat ≤ 122) := by
  rw [Char.isAlphanum, Bool.or_eq_true, Char.isAlpha, Bool.or_eq_true] at h
  rcases h with (h | h) | h
  · rw [char_isUpper_iff] at h
    right
    unfold Char.toLower
    rw [if_pos h, toNat_charOfNat _ (Or.inl (by omega))]
    omega
  · rw [char_isLower_iff] at h
    right
    unfold Char.toLower
    rw [if_neg (by omega)]
    omega
  · rw [char_isDigit_iff] at h
    left
    unfold Char.toLower
    rw [if_neg (by omega)]
    omega

theorem toLower_alnum_class (c : Char) (h : c.isAlphanum = true) :
    (c.toLower.isLower = true ∨ c.toLower.isDigit = true) ∧
      c.toLower ≠ '-' ∧ c.toLower ≠ '/' := by
  have hr := toLower_toNat_range c h
  have h45 : ('-' : Char).toNat = 45 := rfl
  have h47 : ('/' : Char).toNat = 47 := rfl
  refine ⟨?_, ?_, ?_⟩
  · rcases hr with h' | h'
    · right; rw [char_isDigit_iff]; exact h'
    · left; rw [char_isLower_iff]; exact h'
  · intro he; rw [he, h45] at hr; omega
  · intro he; rw [he, h47] at hr; omega

theorem toLower_eq_hyphen (c : Char) (h : c.toLower = '-') : c = '-' := by
  by_cases hu : 65 ≤ c.toNat ∧ c.toNat ≤ 90
  · exfalso
    unfold Char.toLower at h
    rw [if_pos hu] at h
    have hnat := congrArg Char.toNat h
    rw [toNat_charOfNat _ (Or.inl (by omega))] at hnat
    have h45 : ('-' : Char).toNat = 45 := rfl
    omega
  · unfold Char.toLower at h
    rwa [if_neg hu] at h

theorem slugifyLS_char_mem (t : Str) (c : Char) (h : c ∈ slugifyLS t) :
    (c.isLower = true ∨ c.isDigit = true ∨ c = '-') ∧ c ≠ '/' := by
  unfold slugifyLS at h
  obtain ⟨d, hd, hdc⟩ := List.mem_map.1 h
  rcases mem_collapseWsToHyphen _ d hd with hd' | ⟨hdm, hdws⟩
  · subst hd'
    have : c = '-' := by rw [← hdc]; rfl
    subst this
    exact ⟨.inr (.inr rfl), by decide⟩
  · have hdk := mem_trimWs _ d hdm
    have hfil := (List.mem_filter.1 hdk).2
    rw [Bool.or_eq_true] at hfil
    rcases hfil with halnum | hws
    · obtain ⟨hcls, hne1, hne2⟩ := toLower_alnum_class d halnum
      subst hdc
      exact ⟨by rcases hcls with h' | h' <;> [exact .inl h'; exact .inr (.inl h')],
        hne2⟩
    · rw [hws] at hdws; cases hdws

theorem slugifyLS_head_ne_hyphen (t : Str) :
    (slugifyLS t).head? ≠ some '-' := by
  intro h
  unfold slugifyLS at h
  rw [List.head?_map] at h
  cases hh : (collapseWsToHyphen (trimWs ((t.flatMap slugifyMapChar).filter
      fun c => c.isAlphanum || isWsChar c))).head? with
  | none => rw [hh] at h; cases h
  | some d =>
    rw [hh] at h
    simp only [Option.map_some', Option.some.injEq] at h
    have hd : d = '-' := toLower_eq_hyphen d h
    subst hd
    obtain ⟨a, ha, hcls⟩ := head?_collapseWsToHyphen_hyphen _ hh
    rcases hcls with haws | ha'
    · rw [head?_trimWs_not_ws _ a ha] at haws; cases haws
    · subst ha'
      have ham := List.mem_of_mem_head? ha
      have := (List.mem_filter.1 (mem_trimWs _ _ ham)).2
      exact absurd this (by decide)

theorem slugifyLS_getLast_ne_hyphen (t : Str) :
    (slugifyLS t).getLast? ≠ some '-' := by
  intro h
  unfold slugifyLS at h
  rw [List.getLast?_map] at h
  cases hh : (collapseWsToHyphen (trimWs ((t.flatMap slugifyMapChar).filter
      fun c => c.isAlphanum || isWsChar c))).getLast? with
  | none => rw [hh] at h; cases h
  | some d =>
    rw [hh] at h
    simp only [Option.map_some', Option.some.injEq] at h
    have hd : d = '-' := toLower_eq_hyphen d h
    subst hd
    obtain ⟨a, ha, hcls⟩ := getLast?_collapseWsToHyphen_hyphen _ hh
    rcases hcls with haws | ha'
    · rw [getLast?_trimWs_not_ws _ a ha] at haws; cases haws
    · subst ha'
      have ham := List.mem_of_mem_getLast? ha
      have := (List.mem_filter.1 (mem_trimWs _ _ ham)).2
      exact absurd this (by decide)

theorem ensureLeadingSlash_slugifyLS (t : Str) :
    ensureLeadingSlash (slugifyLS t) = '/' :: slugifyLS t := by
  unfold ensureLeadingSlash
  cases hh : (slugifyLS t).head? with
  | none => simp
  | some c =>
    have hc := (slugifyLS_char_mem t c (List.mem_of_mem_head? hh)).2
    simp [hh, hc]

/-! ## Claim C4 — shape of generated slugs -/

/-- Claim C4 (amended): the slug stored for a non-external node is derived
from the English title by lowercasing, collapsing whitespace and hyphens to
single hyphens, spelling out the symbols `$ % & < > |` as the words
`dollar`, `percent`, `and`, `less`, `greater`, `or` (the package's character
map), and *removing* all other punctuation (not hyphenating it), with
surrounding whitespace trimmed — so the segment holds only lowercase
letters, digits and hyphens, never a slash, and neither starts nor ends with
a hyphen.  Without a parent the stored slug is exactly `'/'` followed by the
segment (a single leading slash); with a found parent it is the parent's
slug, `/`, and the segment, forced to lead with `'/'`.  External-link nodes
skip slug generation entirely. -/
theorem slug_generation_shape :
    (∀ (t : Str) (c : Char), c ∈ slugifyLS t →
       (c.isLower = true ∨ c.isDigit = true ∨ c = '-') ∧ c ≠ '/') ∧
    (∀ t : Str, (slugifyLS t).head? ≠ some '-' ∧
       (slugifyLS t).getLast? ≠ some '-') ∧
    (∀ (store : MenuStore) (n : MenuNode),
       n.isExternalLink = false → jsTruthyStr n.url = false →
       n.parentId = none →
       menuPreSave store n =
         .ok { n with slug := '/' :: slugifyLS n.titleEn }) ∧
    (∀ (store : MenuStore) (n : MenuNode) (pid : Nat) (p : MenuNode),
       n.isExternalLink = false → jsTruthyStr n.url = false →
       n.parentId = some pid → findById store (some pid) = some p →
       pid ≠ n.id →
       menuPreSave store n =
         .ok { n with
               slug := ensureLeadingSlash
                 (p.slug ++ '/' :: slugifyLS n.titleEn) }) ∧
    (∀ (store : MenuStore) (n : MenuNode),
       (n.isExternalLink || jsTruthyStr n.url) = true →
       menuPreSave store n = .ok n) ∧
    slugifyLS (str "a&b") = str "aandb" ∧
    slugifyLS (str "50% off") = str "50percent-off" := by
  refine ⟨slugifyLS_char_mem,
    fun t => ⟨slugifyLS_head_ne_hyphen t, slugifyLS_getLast_ne_hyphen t⟩,
    ?_, ?_, ?_, by decide, by decide⟩
  · intro store n hext hurl hpar
    unfold menuPreSave
    simp [hext, hurl, hpar, ensureLeadingSlash_slugifyLS]
  · intro store n pid p hext hurl hpar hgp hself
    unfold menuPreSave
    simp [hext, hurl, hpar, hgp, hself]
  · intro store n hskip
    unfold menuPreSave
    simp [hskip]

/-- Witness for C4: the five parts at concrete inputs — the character `h` of
`slugify "Hello World!"`, the edges of `slugify " x "`, the root save of
`menuBang`, the child save of `menuTeam` under `menuG`, and the external
`menuExtAbout`. -/
theorem slug_generation_shape_witness :
    ((('h' : Char).isLower = true ∨ ('h' : Char).isDigit = true ∨
        ('h' : Char) = '-') ∧ ('h' : Char) ≠ '/') ∧
    ((slugifyLS (str " x ")).head? ≠ some '-' ∧
     (slugifyLS (str " x ")).getLast? ≠ some '-') ∧
    menuPreSave [] menuBang =
      .ok { menuBang with slug := '/' :: slugifyLS menuBang.titleEn } ∧
    menuPreSave [menuG] menuTeam =
      .ok { menuTeam with
            slug := ensureLeadingSlash
              (menuG.slug ++ '/' :: slugifyLS menuTeam.titleEn) } ∧
    menuPreSave [] menuExtAbout = .ok menuExtAbout :=
  ⟨slug_generation_shape.1 (str "Hello World!") 'h' (by decide),
   slug_generation_shape.2.1 (str " x "),
   slug_generation_shape.2.2.1 [] menuBang (by decide) (by decide) (by decide),
   slug_generation_shape.2.2.2.1 [menuG] menuTeam 1 menuG
     (by decide) (by decide) (by decide) (by decide) (by decide),
   slug_generation_shape.2.2.2.2.1 [] menuExtAbout (by decide)⟩

/-- Counterexample for C4 as frozen: punctuation is not collapsed to a
hyphen — the title `a.b` slugifies to `ab`, and the hook stores `/ab`, not
the `/a-b` the claim's derivation prescribes. -/
theorem slug_generation_removes_punctuation :
    slugifyLS (str "a.b") = str "ab" ∧
    slugifyLS (str "a.b") ≠ str "a-b" ∧
    menuPreSave [] menuDotTitle =
      .ok { menuDotTitle with slug := str "/ab" } ∧
    str "/ab" ≠ str "/a-b" := by
  refine ⟨by decide, by decide, by rfl, by decide⟩

/-! ## Claim C5 — publication filtering of the page resolvers -/

/-- Claim C5: the resolver must return NotFound for a slug-matching page
that is not both active and published.  The Mongoose variant of
`GET /pages/:slug(*)` does answer 404 for a draft page, but the Prisma
variant queries by slug alone and returns the draft page's content with
status 200: evaluating both variants on a store holding only a draft page
with slug `about` exhibits the divergence. -/
theorem resolver_returns_draft_page :
    prismaGetPageBySlug [prismaDraftAbout] (str "about") =
      (⟨200, str "ok"⟩, some prismaDraftAbout) ∧
    prismaDraftAbout.status = PrismaStatus.DRAFT ∧
    mongooseGetPageBySlug [pageDraftAbout] (str "about") =
      (⟨404, str "Page not found"⟩, none) ∧
    pageDraftAbout.slug = str "about" ∧ pageDraftAbout.isActive = true ∧
    pageDraftAbout.status ≠ MPageStatus.published := by
  refine ⟨by decide, by decide, by decide, by decide, by decide, by decide⟩

/-! ## Claim C6 — slug-representation leniency of the Mongoose resolver -/

/-- Claim C6: with the slug stored as `about` (active, published), the raw
requests `/about/`, `about` and `/about` all resolve to that same page; the
resolver normalizes by stripping surrounding slashes and collapsing repeated
slashes, and the stored slug also matches in leading-slash, trailing-slash
and surrounded forms. -/
theorem resolver_slug_leniency :
    mongooseGetPageBySlug [pageAbout] (str "/about/") =
      (⟨200, str "ok"⟩, some pageAbout) ∧
    mongooseGetPageBySlug [pageAbout] (str "about") =
      (⟨200, str "ok"⟩, some pageAbout) ∧
    mongooseGetPageBySlug [pageAbout] (str "/about") =
      (⟨200, str "ok"⟩, some pageAbout) ∧
    (mongooseGetPageBySlug [pageAboutLead] (str "about")).2 =
      some pageAboutLead ∧
    (mongooseGetPageBySlug [pageAboutTrail] (str "about")).2 =
      some pageAboutTrail ∧
    (mongooseGetPageBySlug [pageAboutBoth] (str "about")).2 =
      some pageAboutBoth ∧
    normalizeSlug (str "/about/") = str "about" ∧
    normalizeSlug (str "//about///") = str "about" := by
  refine ⟨by decide, by decide, by decide, by decide, by decide, by decide,
    by decide, by decide⟩

/-! ## Claim C7 — the public menu renderer's annotations -/

/-- Claim C7: in the rendered public tree, `href` is `/pages/{slug}` exactly
for slugs of active published pages (this half holds), but `isExternal` is
supposed to be true exactly when the node's url begins with `http` — the
renderer instead reads `item.href` on the freshly fetched document, a field
the schema does not have, so `isExternal` is `false` even for the root whose
url is `http://x.com`. -/
theorem renderer_isExternal_always_false :
    renderPublicMenu [menuRootA, menuRootB] [pageAbout] =
      [.mk menuRootA (str "/pages/about") false [],
       .mk menuRootB (str "/") false []] ∧
    jsOptStartsWithHttp menuRootB.url = true ∧
    (renderPublicMenu [menuRootA, menuRootB] [pageAbout]).map
        RenderedItem.isExternal = [false, false] := by
  refine ⟨rfl, by decide, rfl⟩

/-! ## Claim C9 — titles with no alphanumeric characters -/

/-- Claim C9: a non-external create whose English title has no alphanumeric
characters is supposed to be rejected; instead the route succeeds (201) and
stores the degenerate slug `/`, because the `pre('save')` hook prefixes the
empty slugified segment with a slash and nothing validates the segment. -/
theorem create_stores_degenerate_slug :
    slugifyLS menuBang.titleEn = [] ∧
    createMenu [] menuBang =
      (⟨201, str "Menu Item created successfully!"⟩,
       [{ menuBang with slug := ['/'] }]) ∧
    ({ menuBang with slug := ['/'] } : MenuNode).slug = str "/" := by
  refine ⟨by decide, by decide, by decide⟩

end WbbCms
